import Mathlib

/-!
Verification of the table storage engine of r-nacos.

Shallow embedding of:
- `src/raft/db/table.rs`: the `TableDefinition` catalog record with its
  protobuf wire encoding, the `TableManage` registry (lazy table creation,
  sequence allocation, insert/remove/drop), and the `TableManageCmd`
  command-actor handler;
- `src/grpc/handler/config_query.rs`: the config query gRPC handler.

Machine bytes are modelled as `Nat` values (< 256 where it matters), byte
strings as `List Nat`, and the sled database as explicit association-list
state threaded through each operation.  Fallible best-effort collaborator
calls (`set_table_last_id(..).ok()`, `drop_tree(..).ok()`) take an explicit
Boolean failure flag standing for the environment's behaviour at that call
site.  A Rust panic (`unwrap` on `None`) is modelled as an explicit
`panicked` outcome together with the state at the moment of the panic.
-/

/-- Byte strings (Rust `Vec<u8>` / `&[u8]`): lists of naturals, each < 256
in any state reachable from real inputs. -/
abbrev Bytes := List Nat

/-- UTF-8 bytes of a Rust `String` (`name.as_bytes()`). -/
def strBytes (s : String) : Bytes := s.toUTF8.data.toList.map (fun b => b.toNat)

/- ### Protobuf wire format (prost encoding of `TableDefinition`)

The `TableDefinition` struct in `table.rs` derives `prost::Message` with
`name` as field 1 (string) and `sequence_step` as field 2 (uint32), so its
`to_bytes`/`from_bytes` are prost's proto3 wire encoding for that message:
default-valued fields are skipped, a field is a varint key `(tag << 3) | wire`
followed by its payload.  prost's 10-byte varint limit and UTF-8
re-validation of string fields (both identities on encoder outputs) are not
modelled. -/

/-- Little-endian base-128 varint encoding, fuel-indexed so that it reduces
by kernel computation; `fuel ≥ n` always suffices because the value shrinks
by a factor of 128 per byte. -/
def encodeVarintAux : Nat → Nat → List Nat
  | 0, n => [n % 128]
  | fuel + 1, n =>
    if n < 128 then [n] else (n % 128 + 128) :: encodeVarintAux fuel (n / 128)

/-- Varint encoding of a natural number (prost `encode_varint`). -/
def encodeVarint (n : Nat) : List Nat := encodeVarintAux n n

/-- Varint decoding: returns the decoded value and the remaining bytes
(prost `decode_varint`). -/
def decodeVarint : List Nat → Option (Nat × List Nat)
  | [] => none
  | b :: rest =>
    if b < 128 then some (b, rest)
    else
      match decodeVarint rest with
      | none => none
      | some (n, rest2) => some (b - 128 + 128 * n, rest2)

/-- The persisted catalog record (`TableDefinition` in `table.rs`): table
name (UTF-8 bytes of the Rust `String`) and sequence step, where step 0
means "no sequence". -/
structure TableDefinition where
  name : Bytes
  sequence_step : Nat
deriving DecidableEq, Repr

/-- Field 1 key: tag 1, wire type 2 (length-delimited) = `(1 << 3) | 2`. -/
def nameFieldKey : Nat := 10

/-- Field 2 key: tag 2, wire type 0 (varint) = `(2 << 3) | 0`. -/
def stepFieldKey : Nat := 16

/-- Encoding of a `TableDefinition` (`TableDefinition::to_bytes`, i.e.
prost `Message::encode`): emit field 1 then field 2, skipping defaults. -/
def TableDefinition.to_bytes (d : TableDefinition) : List Nat :=
  (if d.name = [] then []
   else nameFieldKey :: (encodeVarint d.name.length ++ d.name))
  ++ (if d.sequence_step = 0 then []
      else stepFieldKey :: encodeVarint d.sequence_step)

/-- Decoding loop of prost `Message::decode` for this message: read a field
key, dispatch on tag and wire type (tag 1 must be length-delimited, tag 2
must be varint, tag 0 is invalid, unknown tags are skipped by wire type),
merging into the accumulator with last-wins semantics.  `uint32` decoding
truncates the varint to 32 bits as prost's `u64 as u32` cast does.  The
fuel starts at the buffer length; every iteration consumes at least one
byte, so fuel never runs out on real inputs. -/
def decodeFieldsAux : Nat → List Nat → TableDefinition → Option TableDefinition
  | _, [], acc => some acc
  | 0, _ :: _, _ => none
  | fuel + 1, b :: bs, acc =>
    match decodeVarint (b :: bs) with
    | none => none
    | some (key, rest) =>
      let tag := key / 8
      let wire := key % 8
      if tag = 0 then none
      else if tag = 1 then
        if wire = 2 then
          match decodeVarint rest with
          | none => none
          | some (len, rest2) =>
            if len ≤ rest2.length then
              decodeFieldsAux fuel (rest2.drop len) { acc with name := rest2.take len }
            else none
        else none
      else if tag = 2 then
        if wire = 0 then
          match decodeVarint rest with
          | none => none
          | some (v, rest2) =>
            decodeFieldsAux fuel rest2 { acc with sequence_step := v % 4294967296 }
        else none
      else
        if wire = 0 then
          match decodeVarint rest with
          | none => none
          | some (_, rest2) => decodeFieldsAux fuel rest2 acc
        else if wire = 1 then
          if 8 ≤ rest.length then decodeFieldsAux fuel (rest.drop 8) acc else none
        else if wire = 2 then
          match decodeVarint rest with
          | none => none
          | some (len, rest2) =>
            if len ≤ rest2.length then decodeFieldsAux fuel (rest2.drop len) acc
            else none
        else if wire = 5 then
          if 4 ≤ rest.length then decodeFieldsAux fuel (rest.drop 4) acc else none
        else none

/-- Decoding of a `TableDefinition` (`TableDefinition::from_bytes`):
start from the all-default message and fold the fields in; `none` models
the `anyhow::Result` error case. -/
def TableDefinition.from_bytes (bs : List Nat) : Option TableDefinition :=
  decodeFieldsAux bs.length bs { name := [], sequence_step := 0 }

/- ### Association lists

Rust `HashMap` / sled trees hold uniquely-keyed entries; they are modelled
as association lists where `lookupA` returns the first binding, `insertA`
replaces the first binding in place or appends, and `eraseA` removes every
binding for the key. -/

/-- First binding for `k`, as `HashMap::get` / `sled::Tree::get`. -/
def lookupA {α β : Type} [DecidableEq α] : List (α × β) → α → Option β
  | [], _ => none
  | (k, v) :: rest, key => if k = key then some v else lookupA rest key

/-- Replace the first binding for `k` or append one, as `HashMap::insert` /
`sled::Tree::insert` (the prior value is read off with `lookupA` first). -/
def insertA {α β : Type} [DecidableEq α] : List (α × β) → α → β → List (α × β)
  | [], k, v => [(k, v)]
  | (k0, v0) :: rest, k, v =>
    if k0 = k then (k, v) :: rest else (k0, v0) :: insertA rest k v

/-- Remove every binding for `k`, as `HashMap::remove` /
`sled::Tree::remove`. -/
def eraseA {α β : Type} [DecidableEq α] : List (α × β) → α → List (α × β)
  | [], _ => []
  | (k0, v0) :: rest, k =>
    if k0 = k then eraseA rest k else (k0, v0) :: eraseA rest k

/- ### The sled database state -/

/-- One sled tree (named `Tree` in sled): byte keys to byte values. -/
abbrev SledTree := List (Bytes × Bytes)

/-- The shared sled database: named trees, plus the persisted sequence
anchors.  The anchors stand for the sequence-anchor records the spec
describes as "one sequence-anchor record per sequenced table, named and
owned entirely by the Sequence Generator collaborator"; they are kept in a
separate field because their byte layout is explicitly out of the spec's
scope. -/
structure SledDb where
  trees : List (String × SledTree)
  anchors : List (String × Nat)
deriving DecidableEq

/-- The empty database (fresh sled instance). -/
def SledDb.fresh : SledDb := { trees := [], anchors := [] }

/-- Open a tree by name, creating it when absent (`sled::Db::open_tree`). -/
def SledDb.open_tree (db : SledDb) (tname : String) : SledTree × SledDb :=
  match lookupA db.trees tname with
  | some t => (t, db)
  | none => ([], { db with trees := insertA db.trees tname [] })

/-- Insert into a tree, opening it first; returns the prior value for the
key (`tree.insert(key, value)`). -/
def SledDb.tree_insert (db : SledDb) (tname : String) (key value : Bytes) :
    Option Bytes × SledDb :=
  let (t, db1) := db.open_tree tname
  (lookupA t key, { db1 with trees := insertA db1.trees tname (insertA t key value) })

/-- Remove from a tree, opening it first; returns the prior value for the
key (`tree.remove(key)`). -/
def SledDb.tree_remove (db : SledDb) (tname : String) (key : Bytes) :
    Option Bytes × SledDb :=
  let (t, db1) := db.open_tree tname
  (lookupA t key, { db1 with trees := insertA db1.trees tname (eraseA t key) })

/-- Delete a whole tree (`sled::Db::drop_tree`); the call is fallible and
its `Result` is discarded with `.ok()` at the call site, so it takes the
environment's failure flag: on failure nothing is deleted. -/
def SledDb.drop_tree (db : SledDb) (fails : Bool) (tname : String) : SledDb :=
  if fails then db else { db with trees := eraseA db.trees tname }

/-- Current value of a persisted sequence anchor (0 when never written). -/
def SledDb.anchor (db : SledDb) (seq_name : String) : Nat :=
  (lookupA db.anchors seq_name).getD 0

/- ### The Sequence Generator collaborator -/

/-- Modelled from the spec: `TableSequence` lives in
`src/common/sled_utils.rs`, which is not under `src/`; §6 gives its
contract — `new(db_handle, sequence_name, step)`, `next_id()` allocating
strictly increasing never-re-issued IDs, and `set_table_last_id(value)`
forcing the persisted anchor.  The handle records the anchor name and the
step; the anchor itself is persisted in the database state.  Block
buffering (which only makes allocated IDs skip further ahead) is not
modelled: `next_id` here returns exactly `anchor + 1`, the least value the
contract permits. -/
structure TableSequence where
  seq_name : String
  step : Nat
deriving DecidableEq

/-- Modelled from the spec: `TableSequence::new(db, sequence_name, step)`;
the database handle is threaded separately. -/
def TableSequence.new (seq_name : String) (step : Nat) : TableSequence :=
  { seq_name, step }

/-- Modelled from the spec: `next_id()` allocates the next ID after the
persisted anchor and advances the anchor. -/
def TableSequence.next_id (s : TableSequence) (db : SledDb) : Nat × SledDb :=
  let a := db.anchor s.seq_name
  (a + 1, { db with anchors := insertA db.anchors s.seq_name (a + 1) })

/-- Modelled from the spec: `set_table_last_id(value)` forces the persisted
anchor; the call is fallible and every call site discards the `Result` with
`.ok()`, so it takes the environment's failure flag. -/
def TableSequence.set_table_last_id (s : TableSequence) (fails : Bool) (v : Nat)
    (db : SledDb) : SledDb :=
  if fails then db else { db with anchors := insertA db.anchors s.seq_name v }

/- ### TableInfo and TableManage (`table.rs`) -/

/-- Name of the catalog tree (`TABLE_DEFINITION_TREE_NAME`). -/
def TABLE_DEFINITION_TREE_NAME : String := "tables"

/-- Runtime cache entry for one table (`TableInfo`). -/
structure TableInfo where
  name : String
  table_db_name : String
  seq : Option TableSequence
deriving DecidableEq

/-- Constructor `TableInfo::new`: data tree name is `"t_" ++ name`; a
sequence handle named `"seq_" ++ name` is present iff `sequence_step != 0`. -/
def TableInfo.new (name : String) (sequence_step : Nat) : TableInfo :=
  { name
    table_db_name := "t_" ++ name
    seq :=
      if sequence_step = 0 then none
      else some (TableSequence.new ("seq_" ++ name) sequence_step) }

/-- The table registry (`TableManage`): the shared database plus the
in-memory table map keyed by table name. -/
structure TableManage where
  db : SledDb
  table_map : List (String × TableInfo)
deriving DecidableEq

/-- A registry over a fresh database with nothing cached (the state
`TableManage::new` produces when the database holds no catalog records). -/
def TableManage.fresh : TableManage := { db := SledDb.fresh, table_map := [] }

/-- Private helper `TableManage::init_table`: durably write the catalog
record `name -> TableDefinition { name, sequence_step }` into the catalog
tree, keyed by the name's bytes. -/
def TableManage.init_table (s : TableManage) (name : String) (sequence_step : Nat) :
    TableManage :=
  let definition : TableDefinition := { name := strBytes name, sequence_step }
  let (_, db1) :=
    s.db.tree_insert TABLE_DEFINITION_TREE_NAME (strBytes name) definition.to_bytes
  { s with db := db1 }

/-- The catalog's persisted `sequence_step` for `name`: look the record up
in the catalog tree and decode it (used to state claims about the durable
metadata). -/
def TableManage.catalog_step (s : TableManage) (name : String) : Option Nat :=
  match lookupA ((s.db.open_tree TABLE_DEFINITION_TREE_NAME).1) (strBytes name) with
  | none => none
  | some bs => (TableDefinition.from_bytes bs).map (·.sequence_step)

/-- Outcome of `TableManage::next_id`: a fresh ID, the explicit
`anyhow::Result` error, or a Rust panic (`unwrap` on `None`). -/
inductive NextIdOutcome
  | ok (id : Nat)
  | err (msg : String)
  | panicked
deriving DecidableEq

/-- `TableManage::next_id(name, seq_step)`.  Cached with a sequence:
allocate.  Cached without a sequence: the explicit error
`"the table {name} seq is none"`.  Uncached: persist the catalog record
with the requested `seq_step`, construct the in-memory `TableInfo` with
step `0` (as the source literally does: `TableInfo::new(name.clone(),
self.db.clone(), 0)`), then call `.unwrap()` on its sequence — which
panics, because step 0 means the sequence is `None`.  The state returned
with `panicked` is the state at the moment of the panic. -/
def TableManage.next_id (s : TableManage) (name : String) (seq_step : Nat) :
    NextIdOutcome × TableManage :=
  match lookupA s.table_map name with
  | some table_info =>
    match table_info.seq with
    | some seq =>
      let (id, db1) := seq.next_id s.db
      (NextIdOutcome.ok id, { s with db := db1 })
    | none => (NextIdOutcome.err ("the table " ++ name ++ " seq is none"), s)
  | none =>
    let s1 := s.init_table name seq_step
    let table_info := TableInfo.new name 0
    match table_info.seq with
    | some seq =>
      let (id, db1) := seq.next_id s1.db
      (NextIdOutcome.ok id,
        { s1 with db := db1, table_map := insertA s1.table_map name table_info })
    | none => (NextIdOutcome.panicked, s1)

/-- `TableManage::set_last_seq_id(name, last_seq_id)`: force the anchor
when the table is cached and has a sequence; otherwise nothing happens.
`anchorFails` is the environment's failure flag for the `.ok()`-discarded
anchor write. -/
def TableManage.set_last_seq_id (s : TableManage) (anchorFails : Bool)
    (name : String) (last_seq_id : Nat) : TableManage :=
  match lookupA s.table_map name with
  | some table_info =>
    match table_info.seq with
    | some seq => { s with db := seq.set_table_last_id anchorFails last_seq_id s.db }
    | none => s
  | none => s

/-- `TableManage::insert(name, key, value, last_seq_id)`.  Cached: fast-
forward the anchor when both a sequence and a `last_seq_id` are present,
then write into the data tree, returning the prior value.  Uncached:
persist the catalog record with step 0, build the `TableInfo` with step 0
(so its sequence is `None` and the fast-forward is skipped), cache it, and
write into the data tree. -/
def TableManage.insert (s : TableManage) (anchorFails : Bool) (name : String)
    (key value : Bytes) (last_seq_id : Option Nat) : Option Bytes × TableManage :=
  match lookupA s.table_map name with
  | some table_info =>
    let db1 :=
      match table_info.seq, last_seq_id with
      | some seq, some lid => seq.set_table_last_id anchorFails lid s.db
      | _, _ => s.db
    let (prior, db2) := db1.tree_insert table_info.table_db_name key value
    (prior, { s with db := db2 })
  | none =>
    let s1 := s.init_table name 0
    let table_info := TableInfo.new name 0
    let db2 :=
      match table_info.seq, last_seq_id with
      | some seq, some lid => seq.set_table_last_id anchorFails lid s1.db
      | _, _ => s1.db
    let (prior, db3) := db2.tree_insert table_info.table_db_name key value
    (prior, { s1 with db := db3, table_map := insertA s1.table_map name table_info })

/-- `TableManage::remove(name, key)`: when the table is cached, remove the
key from its data tree and return the prior value; when it is not cached,
return `None` and touch nothing. -/
def TableManage.remove (s : TableManage) (name : String) (key : Bytes) :
    Option Bytes × TableManage :=
  match lookupA s.table_map name with
  | some table_info =>
    let (prior, db1) := s.db.tree_remove table_info.table_db_name key
    (prior, { s with db := db1 })
  | none => (none, s)

/-- `TableManage::drop_table(name)`: when cached, remove the entry from the
map, best-effort reset the sequence anchor to 0 (when a sequence is
present), and best-effort delete the data tree; when not cached, nothing
happens.  `anchorFails` / `dropFails` are the environment's failure flags
for the two `.ok()`-discarded calls. -/
def TableManage.drop_table (s : TableManage) (anchorFails dropFails : Bool)
    (name : String) : TableManage :=
  match lookupA s.table_map name with
  | some table =>
    let db1 :=
      match table.seq with
      | some seq => seq.set_table_last_id anchorFails 0 s.db
      | none => s.db
    let db2 := db1.drop_tree dropFails table.table_db_name
    { s with db := db2, table_map := eraseA s.table_map name }
  | none => s

/- ### The command actor (`Handler<TableManageCmd> for TableManage`) -/

/-- The synchronous command family `TableManageCmd`. -/
inductive TableManageCmd
  | Set (table_name : String) (key value : Bytes) (last_seq_id : Option Nat)
  | Remove (table_name : String) (key : Bytes)
  | Drop (table_name : String)
  | NextId (table_name : String) (seq_step : Option Nat)
  | SetSeqId (table_name : String) (last_seq_id : Nat)
deriving DecidableEq

/-- The three result shapes (`TableManageResult`). -/
inductive TableManageResult
  | None
  | Value (v : Bytes)
  | NextId (id : Nat)
deriving DecidableEq

/-- What the actor's `handle` produces: an `anyhow::Result` value (every
arm of the source returns `Ok(..)`, so only the `ok` shape occurs), or a
propagating panic. -/
inductive HandleOutcome
  | ok (r : TableManageResult)
  | panicked
deriving DecidableEq

/-- The command actor's `handle` for `TableManageCmd`, dispatching each
command to the registry operation and shaping the result.  Note the
`NextId` arm: the source maps `Err(_)` to `Ok(TableManageResult::None)`,
discarding the registry's error.  `seq_step.unwrap_or(100)` is
`Option.getD`. -/
def TableManage.handle (s : TableManage) (anchorFails dropFails : Bool)
    (msg : TableManageCmd) : HandleOutcome × TableManage :=
  match msg with
  | TableManageCmd.Set name key value lid =>
    let (prior, s1) := s.insert anchorFails name key value lid
    (match prior with
     | some v => HandleOutcome.ok (TableManageResult.Value v)
     | none => HandleOutcome.ok TableManageResult.None, s1)
  | TableManageCmd.Remove name key =>
    let (prior, s1) := s.remove name key
    (match prior with
     | some v => HandleOutcome.ok (TableManageResult.Value v)
     | none => HandleOutcome.ok TableManageResult.None, s1)
  | TableManageCmd.Drop name =>
    (HandleOutcome.ok TableManageResult.None, s.drop_table anchorFails dropFails name)
  | TableManageCmd.NextId name seq_step =>
    let (r, s1) := s.next_id name (seq_step.getD 100)
    (match r with
     | NextIdOutcome.ok v => HandleOutcome.ok (TableManageResult.NextId v)
     | NextIdOutcome.err _ => HandleOutcome.ok TableManageResult.None
     | NextIdOutcome.panicked => HandleOutcome.panicked, s1)
  | TableManageCmd.SetSeqId name lid =>
    (HandleOutcome.ok TableManageResult.None, s.set_last_seq_id anchorFails name lid)

/- ### The config query gRPC handler (`config_query.rs`) -/

/-- Modelled from the spec: `SUCCESS_CODE` lives in
`src/grpc/api_model.rs`, which is not under `src/`. -/
def SUCCESS_CODE : Nat := 200

/-- Modelled from the spec: `ERROR_CODE` lives in `src/grpc/api_model.rs`,
which is not under `src/`; it is the "server-error response code" of §7. -/
def ERROR_CODE : Nat := 500

/-- The config actor's reply (`ConfigResult` in `config/config.rs`): the
stored content or "no such config". -/
inductive ConfigResult
  | DATA (content : String)
  | NULL
deriving DecidableEq

/-- Modelled from the spec: the decoded `ConfigQueryRequest` body
(`api_model.rs` is not under `src/`); only the fields `config_query.rs`
reads are modelled. -/
structure ConfigQueryRequest where
  data_id : String
  group : String
  tenant : String
  tag : Option String
deriving DecidableEq

/-- Modelled from the spec: `ConfigQueryResponse` with its `Default`
(zero codes, empty content, absent tag and message). -/
structure ConfigQueryResponse where
  result_code : Nat := 0
  error_code : Nat := 0
  content : String := ""
  tag : Option String := none
  message : Option String := none
deriving DecidableEq

/-- Modelled from the spec: the gRPC payload envelope built by
`PayloadUtils::build_payload(type, body)`; the JSON serialization of the
body is kept structured. -/
structure Payload where
  type_url : String
  body : ConfigQueryResponse
deriving DecidableEq

/-- Modelled from the spec: `PayloadUtils::build_payload`. -/
def PayloadUtils.build_payload (type_url : String) (body : ConfigQueryResponse) :
    Payload :=
  { type_url, body }

/-- `ConfigQueryRequestHandler::handle`, as a function of the decoded
request and of the mailbox delivery outcome `self.config_addr.send(cmd)
.await` (`Except.error msg` is a `MailboxError` whose display string is
`msg`; the inner `res.unwrap()` is modelled as the already-unwrapped
`ConfigResult`).  Every branch fills a `ConfigQueryResponse` starting from
its default and returns `Ok(payload)`. -/
def ConfigQueryRequestHandler.handle (request : ConfigQueryRequest)
    (send : Except String ConfigResult) : Except String Payload :=
  let response :=
    match send with
    | Except.ok (ConfigResult.DATA content) =>
      { result_code := SUCCESS_CODE, content := content,
        tag := request.tag : ConfigQueryResponse }
    | Except.ok ConfigResult.NULL =>
      { result_code := ERROR_CODE, error_code := ERROR_CODE,
        message := some "config data not exist" : ConfigQueryResponse }
    | Except.error err =>
      { result_code := ERROR_CODE, error_code := ERROR_CODE,
        message := some err : ConfigQueryResponse }
  Except.ok (PayloadUtils.build_payload "ConfigQueryResponse" response)

/- ### Varint round-trip lemmas -/

theorem decodeVarint_encodeVarintAux (fuel : Nat) :
    ∀ n rest, n ≤ fuel →
      decodeVarint (encodeVarintAux fuel n ++ rest) = some (n, rest) := by
  induction fuel with
  | zero =>
    intro n rest hn
    have h0 : n = 0 := Nat.le_zero.mp hn
    subst h0
    simp [encodeVarintAux, decodeVarint]
  | succ fuel ih =>
    intro n rest hn
    by_cases h : n < 128
    · simp [encodeVarintAux, h, decodeVarint]
    · have hrec : n / 128 ≤ fuel := by omega
      simp only [encodeVarintAux, h, if_false, List.cons_append]
      have hb : ¬ (n % 128 + 128 < 128) := by omega
      simp only [decodeVarint, hb, if_false, ih (n / 128) rest hrec]
      have : n % 128 + 128 - 128 + 128 * (n / 128) = n := by omega
      rw [this]

theorem decodeVarint_encodeVarint (n : Nat) (rest : List Nat) :
    decodeVarint (encodeVarint n ++ rest) = some (n, rest) :=
  decodeVarint_encodeVarintAux n n rest (Nat.le_refl n)

/- ### TableDefinition codec lemmas -/

theorem decodeFieldsAux_nil (fuel : Nat) (acc : TableDefinition) :
    decodeFieldsAux fuel [] acc = some acc := by
  cases fuel <;> rfl

theorem decodeFieldsAux_step_field (fuel v : Nat) (acc : TableDefinition)
    (hlt : v < 4294967296) :
    decodeFieldsAux (fuel + 1) (stepFieldKey :: encodeVarint v) acc
      = some { acc with sequence_step := v } := by
  have henc : decodeVarint (encodeVarint v) = some (v, []) := by
    have h := decodeVarint_encodeVarint v []
    rwa [List.append_nil] at h
  simp [decodeFieldsAux, stepFieldKey, decodeVarint, henc,
    decodeFieldsAux_nil, Nat.mod_eq_of_lt hlt]

theorem decodeFieldsAux_name_field (fuel : Nat) (nm tail : List Nat)
    (acc : TableDefinition) :
    decodeFieldsAux (fuel + 1)
        (nameFieldKey :: (encodeVarint nm.length ++ (nm ++ tail))) acc
      = decodeFieldsAux fuel tail { acc with name := nm } := by
  have henc := decodeVarint_encodeVarint nm.length (nm ++ tail)
  simp [decodeFieldsAux, nameFieldKey, decodeVarint, henc,
    List.length_append, Nat.le_add_right, List.take_left, List.drop_left]

/- ### Association-list and database lemmas -/

theorem lookupA_insertA_self {α β : Type} [DecidableEq α] (l : List (α × β)) (k : α) (v : β) :
    lookupA (insertA l k v) k = some v := by
  induction l with
  | nil => simp [insertA, lookupA]
  | cons p rest ih =>
    obtain ⟨k0, v0⟩ := p
    by_cases h : k0 = k
    · simp [insertA, h, lookupA]
    · simp [insertA, h, lookupA, ih]

theorem lookupA_eraseA_self {α β : Type} [DecidableEq α] (l : List (α × β)) (k : α) :
    lookupA (eraseA l k) k = none := by
  induction l with
  | nil => rfl
  | cons p rest ih =>
    obtain ⟨k0, v0⟩ := p
    by_cases h : k0 = k
    · simp [eraseA, h, ih]
    · simp [eraseA, h, lookupA, ih]

theorem open_tree_anchors (db : SledDb) (tname : String) :
    (db.open_tree tname).2.anchors = db.anchors := by
  unfold SledDb.open_tree
  cases h : lookupA db.trees tname <;> simp

theorem tree_insert_snd (db : SledDb) (tname : String) (key value : Bytes) :
    (db.tree_insert tname key value).2
      = { (db.open_tree tname).2 with
          trees := insertA (db.open_tree tname).2.trees tname
                     (insertA (db.open_tree tname).1 key value) } := by
  unfold SledDb.tree_insert
  rcases h : db.open_tree tname with ⟨t, db1⟩
  simp

theorem tree_insert_anchors (db : SledDb) (tname : String) (key value : Bytes) :
    (db.tree_insert tname key value).2.anchors = db.anchors := by
  rw [tree_insert_snd]
  simp [open_tree_anchors]

/- ### Shared sample states -/

/-- A registry caching one table `t` whose sequence is enabled with step 5,
as `TableManage::load_tables` rehydrates it from a catalog record with
`sequence_step = 5`. -/
def seqTableState : TableManage :=
  { db := SledDb.fresh, table_map := [("t", TableInfo.new "t" 5)] }

/- ### The claims -/

/-- Claim C1: the claim states that `next_id(name, step)` on a table name
absent from the in-memory map defines the table with a sequence enabled and
returns a fresh ID without failing or crashing.  The code instead
constructs the in-memory `TableInfo` with step 0 (sequence `None`) and then
calls `.unwrap()` on that sequence, so this first-use path always panics:
evaluated here on a fresh registry at name `orders` with step 100. -/
theorem C1_next_id_lazy_creation_panics :
    (TableManage.fresh.next_id "orders" 100).1 = NextIdOutcome.panicked := by decide

/-- Claim C2: the claim states that after a lazily-defining command the
cached `TableInfo` has a sequence iff the `sequence_step` just persisted is
nonzero.  On `next_id("orders", 100)` from a fresh registry the catalog
record is durably written with step 100, yet the `TableInfo` the code
builds for it has no sequence (it is built with step 0), and the panic
prevents it from ever being cached: the durable metadata and the in-memory
state disagree. -/
theorem C2_lazy_definition_inconsistency :
    ((TableManage.fresh.next_id "orders" 100).2.catalog_step "orders" = some 100)
    ∧ ((TableInfo.new "orders" 0).seq = none)
    ∧ (lookupA (TableManage.fresh.next_id "orders" 100).2.table_map "orders" = none) := by
  decide

/-- Claim C3, counterexample: on a cached table whose sequence is disabled
(here `cfg`, created by a prior insert), the registry's `next_id` produces
the descriptive error `"the table cfg seq is none"`, but the command
actor's `NextId` arm returns `Ok(None)` — the error value is not forwarded
to the caller. -/
theorem C3_counterexample :
    ((((TableManage.fresh.insert false "cfg" [1] [2] none).2).next_id "cfg" 100).1
        = NextIdOutcome.err "the table cfg seq is none")
    ∧ ((((TableManage.fresh.insert false "cfg" [1] [2] none).2).handle false false
        (TableManageCmd.NextId "cfg" (some 100))).1
        = HandleOutcome.ok TableManageResult.None) := by decide

/-- Claim C3, amended: the command actor forwards registry results for
`Set`, `Remove`, `Drop` and `SetSeqId` unchanged, but for `NextId` it maps
a registry error to `Ok(None)`: when `next_id` hits a cached table whose
sequence is disabled, the registry produces the descriptive failure and the
actor discards it, reporting `None` instead. -/
theorem C3_nextid_error_swallowed (s : TableManage) (name : String) (step : Option Nat)
    (aF dF : Bool) (ti : TableInfo)
    (h1 : lookupA s.table_map name = some ti) (h2 : ti.seq = none) :
    (s.handle aF dF (TableManageCmd.NextId name step)).1
        = HandleOutcome.ok TableManageResult.None
    ∧ (s.next_id name (step.getD 100)).1
        = NextIdOutcome.err ("the table " ++ name ++ " seq is none") := by
  simp [TableManage.handle, TableManage.next_id, h1, h2]

/-- Witness for C3: the amended statement evaluated on the concrete
sequence-less cached table `cfg`. -/
theorem C3_nextid_error_swallowed_witness :
    (((TableManage.fresh.insert false "cfg" [1] [2] none).2).handle false false
        (TableManageCmd.NextId "cfg" (some 100))).1
        = HandleOutcome.ok TableManageResult.None
    ∧ (((TableManage.fresh.insert false "cfg" [1] [2] none).2).next_id "cfg"
        ((some 100).getD 100)).1
        = NextIdOutcome.err ("the table " ++ "cfg" ++ " seq is none") :=
  C3_nextid_error_swallowed _ "cfg" (some 100) false false (TableInfo.new "cfg" 0)
    (by decide) rfl

/-- Claim C4: `remove(name, key)` on a table name never touched before
returns `None` and leaves the whole registry state — catalog included —
unchanged. -/
theorem C4_remove_uncached_noop (s : TableManage) (name : String) (key : Bytes)
    (h : lookupA s.table_map name = none) :
    s.remove name key = (none, s) := by
  simp [TableManage.remove, h]

/-- Witness for C4: remove on a fresh registry. -/
theorem C4_remove_uncached_noop_witness :
    TableManage.fresh.remove "orders" [1] = (none, TableManage.fresh) :=
  C4_remove_uncached_noop TableManage.fresh "orders" [1] rfl

/-- Claim C5: `drop_table` is idempotent — on a never-created name it is the
identity on the registry state, and dropping twice in a row (with any
combination of best-effort failure flags) leaves exactly the state of
dropping once, so all subsequent command results coincide. -/
theorem C5_drop_idempotent (s : TableManage) (name : String) (f1 f2 g1 g2 : Bool) :
    (lookupA s.table_map name = none → s.drop_table f1 f2 name = s)
    ∧ ((s.drop_table f1 f2 name).drop_table g1 g2 name = s.drop_table f1 f2 name) := by
  have hnone : ∀ (t : TableManage) (b1 b2 : Bool),
      lookupA t.table_map name = none → t.drop_table b1 b2 name = t := by
    intro t b1 b2 ht
    simp [TableManage.drop_table, ht]
  refine ⟨hnone s f1 f2, ?_⟩
  cases h : lookupA s.table_map name with
  | none => rw [hnone s f1 f2 h, hnone s g1 g2 h]
  | some ti =>
    refine hnone _ g1 g2 ?_
    simp [TableManage.drop_table, h, lookupA_eraseA_self]

/-- Witness for C5: both conjuncts on a fresh registry. -/
theorem C5_drop_idempotent_witness :
    (TableManage.fresh.drop_table false false "orders" = TableManage.fresh)
    ∧ ((TableManage.fresh.drop_table false false "orders").drop_table false false "orders"
        = TableManage.fresh.drop_table false false "orders") :=
  ⟨(C5_drop_idempotent TableManage.fresh "orders" false false false false).1 rfl,
   (C5_drop_idempotent TableManage.fresh "orders" false false false false).2⟩

/-- Claim C6: dropping a cached table through the command actor always
reports `Ok(None)` — for every combination of anchor-reset and
tree-deletion failure flags — and removes the in-memory `TableInfo`; when
the tree deletion succeeds the data tree is gone, and when the table has a
sequence and the anchor reset succeeds the anchor is 0.  Failures of either
best-effort call are swallowed, never surfaced. -/
theorem C6_drop_best_effort (s : TableManage) (name : String) (ti : TableInfo)
    (f1 f2 : Bool) (h : lookupA s.table_map name = some ti) :
    (s.handle f1 f2 (TableManageCmd.Drop name)).1 = HandleOutcome.ok TableManageResult.None
    ∧ lookupA (s.handle f1 f2 (TableManageCmd.Drop name)).2.table_map name = none
    ∧ (f2 = false →
        lookupA (s.handle f1 f2 (TableManageCmd.Drop name)).2.db.trees ti.table_db_name
          = none)
    ∧ (∀ sq, ti.seq = some sq → f1 = false →
        (s.handle f1 f2 (TableManageCmd.Drop name)).2.db.anchor sq.seq_name = 0) := by
  refine ⟨rfl, ?_, ?_, ?_⟩
  · simp [TableManage.handle, TableManage.drop_table, h, lookupA_eraseA_self]
  · intro hf2
    subst hf2
    simp [TableManage.handle, TableManage.drop_table, h, SledDb.drop_tree,
      lookupA_eraseA_self]
  · intro sq hsq hf1
    subst hf1
    cases f2 <;>
      simp [TableManage.handle, TableManage.drop_table, h, hsq, SledDb.drop_tree,
        TableSequence.set_table_last_id, SledDb.anchor, lookupA_insertA_self]

/-- Witness for C6: dropping the cached sequenced table `t` while both
best-effort cleanup calls fail still reports `Ok(None)` and uncaches it. -/
theorem C6_drop_best_effort_witness :
    (seqTableState.handle true true (TableManageCmd.Drop "t")).1
        = HandleOutcome.ok TableManageResult.None
    ∧ lookupA (seqTableState.handle true true (TableManageCmd.Drop "t")).2.table_map "t"
        = none
    ∧ (true = false →
        lookupA (seqTableState.handle true true (TableManageCmd.Drop "t")).2.db.trees
          (TableInfo.new "t" 5).table_db_name = none)
    ∧ (∀ sq, (TableInfo.new "t" 5).seq = some sq → true = false →
        (seqTableState.handle true true (TableManageCmd.Drop "t")).2.db.anchor sq.seq_name
          = 0) :=
  C6_drop_best_effort seqTableState "t" (TableInfo.new "t" 5) true true rfl

/-- Claim C7, counterexample: from a fresh registry,
`insert("orders", k, v, Some(5))` is the command that first creates the
table, so the table is created without a sequence; the following
`next_id("orders")` then does not return any value greater than 5 — it
fails with the seq-is-none error. -/
theorem C7_counterexample :
    ¬ ∃ id, (((TableManage.fresh.insert false "orders" [7] [8] (some 5)).2).next_id
        "orders" 100).1 = NextIdOutcome.ok id ∧ 5 < id := by
  have hval : (((TableManage.fresh.insert false "orders" [7] [8] (some 5)).2).next_id
      "orders" 100).1 = NextIdOutcome.err "the table orders seq is none" := by decide
  rintro ⟨id, hid, _⟩
  rw [hval] at hid
  exact NextIdOutcome.noConfusion hid

/-- Claim C7, amended: when the table is already cached with a sequence
enabled, `insert(name, key, value, Some(X))` followed by `next_id` returns
a value strictly greater than `X` (with the Sequence Generator honouring
its contract and the anchor write succeeding); but when the insert is the
command that first creates the table, the table is created without a
sequence, `X` is silently ignored, and the subsequent `next_id` fails with
the seq-is-none error instead of returning a value. -/
theorem C7_seq_fast_forward_amended (s : TableManage) (name : String) (ti : TableInfo)
    (sq : TableSequence) (key value : Bytes) (X step : Nat)
    (h1 : lookupA s.table_map name = some ti) (h2 : ti.seq = some sq) :
    (∃ id, (((s.insert false name key value (some X)).2).next_id name step).1
        = NextIdOutcome.ok id ∧ X < id)
    ∧ (∀ (s2 : TableManage) (n2 : String) (k2 v2 : Bytes) (X2 st2 : Nat),
        lookupA s2.table_map n2 = none →
        (((s2.insert false n2 k2 v2 (some X2)).2).next_id n2 st2).1
          = NextIdOutcome.err ("the table " ++ n2 ++ " seq is none")) := by
  constructor
  · refine ⟨X + 1, ?_, Nat.lt_succ_self X⟩
    unfold TableManage.insert
    rw [h1]
    simp only [h2]
    simp [TableManage.next_id, h1, h2, TableSequence.next_id, SledDb.anchor,
      tree_insert_anchors, TableSequence.set_table_last_id, lookupA_insertA_self]
  · intro s2 n2 k2 v2 X2 st2 hnone
    unfold TableManage.insert
    rw [hnone]
    simp [TableInfo.new, TableManage.next_id, TableManage.init_table, lookupA_insertA_self]

/-- Witness for C7: the amended statement evaluated on the cached sequenced
table `t` with `X = 5`. -/
theorem C7_seq_fast_forward_amended_witness :
    (∃ id, (((seqTableState.insert false "t" [1] [2] (some 5)).2).next_id "t" 100).1
        = NextIdOutcome.ok id ∧ 5 < id)
    ∧ (∀ (s2 : TableManage) (n2 : String) (k2 v2 : Bytes) (X2 st2 : Nat),
        lookupA s2.table_map n2 = none →
        (((s2.insert false n2 k2 v2 (some X2)).2).next_id n2 st2).1
          = NextIdOutcome.err ("the table " ++ n2 ++ " seq is none")) :=
  C7_seq_fast_forward_amended seqTableState "t" (TableInfo.new "t" 5)
    (TableSequence.new "seq_t" 5) [1] [2] 5 100 rfl rfl

/-- Claim C8: `set_last_seq_id(name, value)` is a no-op (the whole registry
state is unchanged) when the table is not cached, and on a cached table
with a sequence it forces that sequence's persisted anchor to `value`
(assuming the anchor write succeeds; its failure would be swallowed by the
`.ok()` at the call site) while leaving the table map untouched. -/
theorem C8_set_last_seq_id_spec (s : TableManage) (name : String) (v : Nat) (f : Bool) :
    (lookupA s.table_map name = none → s.set_last_seq_id f name v = s)
    ∧ (∀ ti sq, lookupA s.table_map name = some ti → ti.seq = some sq →
        (s.set_last_seq_id false name v).db.anchor sq.seq_name = v
        ∧ (s.set_last_seq_id false name v).table_map = s.table_map) := by
  constructor
  · intro h
    simp [TableManage.set_last_seq_id, h]
  · intro ti sq h1 h2
    constructor <;>
      simp [TableManage.set_last_seq_id, h1, h2, TableSequence.set_table_last_id,
        SledDb.anchor, lookupA_insertA_self]

/-- Witness for C8: the uncached no-op on a fresh registry, and the anchor
forcing on the cached sequenced table `t`. -/
theorem C8_set_last_seq_id_spec_witness :
    (TableManage.fresh.set_last_seq_id false "orders" 7 = TableManage.fresh)
    ∧ ((seqTableState.set_last_seq_id false "t" 7).db.anchor
          (TableSequence.new "seq_t" 5).seq_name = 7
        ∧ (seqTableState.set_last_seq_id false "t" 7).table_map
          = [("t", TableInfo.new "t" 5)]) :=
  ⟨(C8_set_last_seq_id_spec TableManage.fresh "orders" 7 false).1 rfl,
   (C8_set_last_seq_id_spec seqTableState "t" 7 false).2 (TableInfo.new "t" 5)
     (TableSequence.new "seq_t" 5) rfl rfl⟩

/-- Claim C9: when mailbox delivery of the config query command fails, the
handler still returns `Ok` with a well-formed `ConfigQueryResponse` payload
whose result code and error code are both `ERROR_CODE` and whose message
carries the dispatch error's display string — the failure is not
propagated. -/
theorem C9_mailbox_failure_reported (request : ConfigQueryRequest) (err : String) :
    ConfigQueryRequestHandler.handle request (Except.error err)
      = Except.ok
          { type_url := "ConfigQueryResponse",
            body := { result_code := ERROR_CODE, error_code := ERROR_CODE,
                      content := "", tag := none, message := some err } } := rfl

/-- Claim C10: encoding a `TableDefinition` (any name bytes, any 32-bit
`sequence_step`) and decoding the result round-trips to the same record. -/
theorem C10_tableDefinition_roundtrip (d : TableDefinition)
    (hbytes : ∀ b ∈ d.name, b < 256) (hstep : d.sequence_step < 4294967296) :
    TableDefinition.from_bytes d.to_bytes = some d := by
  obtain ⟨nm, v⟩ := d
  simp only at hstep
  by_cases hn : nm = []
  · subst hn
    by_cases hv : v = 0
    · subst hv; rfl
    · have hb : TableDefinition.to_bytes { name := [], sequence_step := v }
          = stepFieldKey :: encodeVarint v := by
        simp [TableDefinition.to_bytes, hv]
      rw [hb]
      unfold TableDefinition.from_bytes
      rw [List.length_cons, decodeFieldsAux_step_field _ _ _ hstep]
  · by_cases hv : v = 0
    · subst hv
      have hb : TableDefinition.to_bytes { name := nm, sequence_step := 0 }
          = nameFieldKey :: (encodeVarint nm.length ++ (nm ++ [])) := by
        simp [TableDefinition.to_bytes, hn]
      rw [hb]
      unfold TableDefinition.from_bytes
      rw [List.length_cons, decodeFieldsAux_name_field, decodeFieldsAux_nil]
    · have hb : TableDefinition.to_bytes { name := nm, sequence_step := v }
          = nameFieldKey ::
              (encodeVarint nm.length ++ (nm ++ (stepFieldKey :: encodeVarint v))) := by
        simp [TableDefinition.to_bytes, hn, hv]
      rw [hb]
      unfold TableDefinition.from_bytes
      rw [List.length_cons, decodeFieldsAux_name_field]
      have hlen : (encodeVarint nm.length ++ (nm ++ stepFieldKey :: encodeVarint v)).length
          = ((encodeVarint nm.length).length + nm.length + (encodeVarint v).length) + 1 := by
        simp [List.length_append]
        omega
      rw [hlen, decodeFieldsAux_step_field _ _ _ hstep]

/-- Witness for C10: the round trip evaluated on the record
`(name = "orders", sequence_step = 300)`. -/
theorem C10_tableDefinition_roundtrip_witness :
    (∀ b ∈ strBytes "orders", b < 256) ∧ (300 : Nat) < 4294967296
    ∧ TableDefinition.from_bytes
        (TableDefinition.to_bytes { name := strBytes "orders", sequence_step := 300 })
      = some { name := strBytes "orders", sequence_step := 300 } :=
  ⟨by decide, by decide,
   C10_tableDefinition_roundtrip { name := strBytes "orders", sequence_step := 300 }
     (by decide) (by decide)⟩
